import Mathlib

/-!
Verification development for the mimir semantic layer
(`src/mimir/api/definitions.py`, `src/mimir/api/engine.py`,
`src/mimir/api/types.py`, `src/mimir/api/connections.py`,
`src/mimir/shared.py`, `src/mimir/sql/mimir_sql.py`).

The Python code is shallowly embedded: pydantic models become structures,
sqlglot SELECT expressions become explicit projection/WHERE lists, fallible
constructors return `Except String`, and the TTL cache becomes explicit
state passing.  All definitions are executable.
-/

namespace Mimir

/-! ## SQL expression model

A sqlglot `Select` is modelled by its projection list and the list of WHERE
conjuncts (`Select.where` in sqlglot ANDs a new condition onto the existing
WHERE clause, so a list of conjuncts is the faithful representation).
A projection is modelled by its rendered text together with its
`alias_or_name` (the alias when present, otherwise the column name). -/

structure Projection where
  text : String
  aliasOrName : String
deriving DecidableEq, Repr

structure Select where
  expressions : List Projection
  whereConjuncts : List String
deriving DecidableEq, Repr

/-! ## Dates

`datetime.strptime(_, "%Y-%m-%d")`, `timedelta(days=1)` and
`strftime("%Y-%m-%d")` from `Source.compile_source`
(`definitions.py:168-210`).  Gregorian calendar with leap years, exactly as
Python's `datetime` implements it. -/

structure Date where
  year : Nat
  month : Nat
  day : Nat
deriving DecidableEq, Repr

def isLeapYear (y : Nat) : Bool :=
  (y % 4 == 0 && y % 100 != 0) || y % 400 == 0

def daysInMonth (y m : Nat) : Nat :=
  if m = 2 then (if isLeapYear y then 29 else 28)
  else if m = 4 ∨ m = 6 ∨ m = 9 ∨ m = 11 then 30
  else 31

/-- `d + timedelta(days=1)` for a valid Gregorian date. -/
def addOneDay (d : Date) : Date :=
  if d.day < daysInMonth d.year d.month then { d with day := d.day + 1 }
  else if d.month < 12 then { year := d.year, month := d.month + 1, day := 1 }
  else { year := d.year + 1, month := 1, day := 1 }

/-- Left-pad a decimal rendering with zeros to width `w` (CPython zero-pads
`%Y` to four digits and `%m`/`%d` to two). -/
def padZero (w : Nat) (n : Nat) : String :=
  let s := toString n
  if s.length < w then String.mk (List.replicate (w - s.length) '0') ++ s else s

/-- `strftime("%Y-%m-%d")`. -/
def strftimeYmd (d : Date) : String :=
  padZero 4 d.year ++ "-" ++ padZero 2 d.month ++ "-" ++ padZero 2 d.day

/-! ## Definitions (`definitions.py`)

`Dimension`, `Source` and `Metric` are pydantic models on `BaseDefinition`.
`Source.__eq__` compares `(name, class)` and ordering is by `name`; in the
embedding a metric's resolved source is therefore compared through its
`name`. -/

/-- `Dimension` (`definitions.py:48-56`): `source_name` defaults to
`"local"`; `sql` is the optional dimension SQL body (a parsed SELECT). -/
structure Dimension where
  name : String
  sql : Option Select := none
  source_name : String := "local"
deriving DecidableEq, Repr

/-- `Source` after the `_initialize_derived_fields` pydantic validator
(`definitions.py:59-94`): `time_col_alias` has been defaulted to `time_col`
and `local_dimensions` derived from the projections of `sql`.
`source_dimensions` is the config field `dimensions`. -/
structure Source where
  name : String
  sql : Select
  time_col : String
  source_dimensions : List String
  time_col_alias : String
  local_dimensions : List String
deriving DecidableEq, Repr

/-- `Source._initialize_derived_fields` (`definitions.py:80-94`):
default the time alias to `time_col` and derive `local_dimensions` as the
`alias_or_name` of every projection of `sql` other than the time alias. -/
def Source.init (name : String) (sql : Select) (time_col : String)
    (source_dimensions : List String) (time_col_alias : Option String) : Source :=
  let tca := time_col_alias.getD time_col
  { name := name, sql := sql, time_col := time_col
    source_dimensions := source_dimensions
    time_col_alias := tca
    local_dimensions :=
      (sql.expressions.filter (fun p => p.aliasOrName ≠ tca)).map Projection.aliasOrName }

/-- `Metric` (`definitions.py:213-232`) with its resolved `source` attached
by `MimirEngine._init_metric`; the `sql` field is required (validator). -/
structure Metric where
  name : String
  sql : String
  source : Source
  required_dimensions : List String := []
deriving DecidableEq, Repr

/-- Error message built by `Source._validate_columns`
(`definitions.py:124-128`). -/
def invalidColumnsMsg (sourceName : String) (errorMessage : String)
    (unavailable : List String) : String :=
  "Invalid columns for source \x27" ++ sourceName ++ "\x27. " ++ errorMessage
    ++ " (" ++ String.intercalate ", " unavailable ++ ")"

/-- `Source._validate_columns` (`definitions.py:96-128`).  `candidates`
gathers `local_dimensions`, `source_dimensions`, `metric_names` and
`[time_col_alias]`; Python's `if col_list` truthiness skips `None`
(modelled as `Option.getD []`) and empty lists alike. -/
def Source.validateColumns (s : Source) (column_names : List String)
    (metric_names : Option (List String) := none)
    (granularity_alias : Option String := none)
    (error_message : Option String := none) : Except String Unit :=
  let emsg := error_message.getD
    "The following dimensions are missing from the source config: "
  let candidates : List (List String) :=
    [s.local_dimensions, s.source_dimensions, metric_names.getD [],
      [s.time_col_alias]]
  let allowed := (candidates.filter (fun l => !l.isEmpty)).flatten
  let allowed := match granularity_alias with
    | some g => if g ≠ "" then allowed ++ [g] else allowed
    | none => allowed
  let unavailable := column_names.filter (fun c => !(allowed.contains c))
  if unavailable.isEmpty then Except.ok ()
  else Except.error (invalidColumnsMsg s.name emsg unavailable)

/-- `Source.validate_dimensions` (`definitions.py:130-134`); the Python
signature accepts `Dimension` objects or names and immediately reduces both
to names, so the embedding takes the list of requested dimension names. -/
def Source.validate_dimensions (s : Source) (dimension_names : List String) :
    Except String Unit :=
  s.validateColumns dimension_names

/-- `Source.compile_source` (`definitions.py:168-210`): append the
projections of every supplied non-local dimension with a SQL body, then
AND on the date bounds (`>=` of the start day, `<` of the day after the
end day). -/
def Source.compile_source (s : Source) (dimensions : List Dimension)
    (start_date end_date : Option Date) : Select :=
  let ast := s.sql
  let ast :=
    if dimensions.isEmpty then ast
    else { ast with expressions := ast.expressions ++
      ((dimensions.filter
          (fun d => d.source_name ≠ "local" && d.sql.isSome)).map
        (fun d => (d.sql.getD { expressions := [], whereConjuncts := [] }).expressions)).flatten }
  let ast := match start_date with
    | some d => { ast with whereConjuncts := ast.whereConjuncts ++
        [s.time_col ++ " >= \x27" ++ strftimeYmd d ++ "\x27"] }
    | none => ast
  match end_date with
  | some d => { ast with whereConjuncts := ast.whereConjuncts ++
      [s.time_col ++ " < \x27" ++ strftimeYmd (addOneDay d) ++ "\x27"] }
  | none => ast

/-! ## Granularities (`types.py:8-35`) -/

/-- A granularity expression `expr AS outputAlias` as produced by the
enum's `parse_function` lambdas. -/
structure GranExpr where
  expr : String
  outputAlias : String
deriving DecidableEq, Repr

inductive GRANULARITY where
  | TIME
  | DATE
  | MONTH
  | YEAR
deriving DecidableEq, Repr

/-- The `alias` property of each enum member (`types.py:15-18, 26-35`). -/
def GRANULARITY.alias : GRANULARITY → String
  | .TIME => "ts"
  | .DATE => "ds"
  | .MONTH => "year_month"
  | .YEAR => "year"

/-- `GRANULARITY._get_granularity_expression` (`types.py:20-35`): each
member's `parse_function` applied to the column name, split into the
expression and its output alias.  Note `YEAR` emits `... AS year_month`. -/
def GRANULARITY.getGranularityExpression : GRANULARITY → String → GranExpr
  | .TIME, col => { expr := col, outputAlias := "ts" }
  | .DATE, col => { expr := "DATE(" ++ col ++ ")", outputAlias := "ds" }
  | .MONTH, col =>
    { expr := "DATE_TRUNC(\x27month\x27, " ++ col ++ ")", outputAlias := "year_month" }
  | .YEAR, col =>
    { expr := "DATE_TRUNC(\x27year\x27, " ++ col ++ ")", outputAlias := "year_month" }

/-! ## Catalog resolution (`engine.py:62-159`)

The configuration loader is modelled as a lookup function returning the raw
configuration when present.  Raw configurations mirror the dictionary keys
the code reads; pydantic's `extra="allow"` keeps unknown keys (such as the
`"source"` key of the synthesized dimension stub) without binding them to
declared fields. -/

structure RawDimensionConf where
  name : String
  sql : Option Select := none
  source_name : Option String := none
  source : Option String := none
deriving DecidableEq, Repr

structure RawSourceConf where
  name : String
  sql : Option Select := none
  time_col : String
  dimensions : List String := []
  time_col_alias : Option String := none
  connection_name : Option String := none
deriving DecidableEq, Repr

structure RawMetricConf where
  name : String
  sql : Option String := none
  source_name : Option String := none
  required_dimensions : List String := []
deriving DecidableEq, Repr

/-- `MimirEngine._init_dimension` / pydantic construction of `Dimension`:
the declared field `source_name` takes its default `"local"` when the raw
configuration has no `source_name` key (a `source` key is retained only as
an extra attribute and does not feed `source_name`). -/
def initDimension (conf : RawDimensionConf) : Dimension :=
  { name := conf.name, sql := conf.sql, source_name := conf.source_name.getD "local" }

/-- `MimirEngine.get_dimension` (`engine.py:126-142`): when the loader has
no configuration (Python `or` on the falsy result) a stub
`{"source": "local", "name": name}` is synthesized.  The TTL cache wrapper
is modelled separately (`ttlCall`). -/
def get_dimension (loader : String → Option RawDimensionConf) (name : String) :
    Dimension :=
  initDimension (match loader name with
    | some conf => conf
    | none => { name := name, source := some "local" })

/-- `MimirEngine._init_source` (`engine.py:62-85`) without the runtime
connection object: `connection_name` is required (Python truthiness, so an
empty string also fails) and the `Source` pydantic validator requires
`sql`.  Connection/secret handling is runtime I/O and is outside the
claims' scope. -/
def initSource (conf : RawSourceConf) : Except String Source :=
  if conf.connection_name.getD "" = "" then
    Except.error ("The following source config is missing the required parameter \x27connection_name\x27")
  else match conf.sql with
    | none => Except.error "sql field is needed in the source config"
    | some q =>
      Except.ok (Source.init conf.name q conf.time_col conf.dimensions conf.time_col_alias)

/-- `MimirEngine.get_source` (`engine.py:101-124`): a missing or falsy
configuration raises `MimirConfigError` naming the source. -/
def get_source (loader : String → Option RawSourceConf) (name : String) :
    Except String Source :=
  match loader name with
  | none =>
    Except.error ("Invalid or missing configuration for source \x27" ++ name ++ "\x27")
  | some conf => initSource conf

/-- `MimirEngine.get_metric` together with `_init_metric`
(`engine.py:92-99, 144-159`): a missing configuration raises
`MimirConfigError` naming the metric; otherwise `source_name` is required,
the source is resolved through `get_source`, and the `Metric` validator
requires `sql`. -/
def get_metric (metricLoader : String → Option RawMetricConf)
    (sourceLoader : String → Option RawSourceConf) (name : String) :
    Except String Metric :=
  match metricLoader name with
  | none =>
    Except.error ("Invalid or missing configuration for metric \x27" ++ name ++ "\x27")
  | some conf =>
    if conf.source_name.getD "" = "" then
      Except.error ("The following metric config is missing the required parameter \x27source_name\x27")
    else
      match get_source sourceLoader (conf.source_name.getD "") with
      | Except.error e => Except.error e
      | Except.ok src =>
        match conf.sql with
        | none => Except.error "sql field is needed in the source config"
        | some q =>
          Except.ok { name := conf.name, sql := q, source := src,
                      required_dimensions := conf.required_dimensions }

/-! ## TTL cache (`shared.py:5-32`)

`ttl_cache(ttl)` wraps a function in an unbounded `lru_cache` keyed by the
call arguments plus `_ttl_hash = int(time.time() / ttl)`.  The cache is the
only mutable state; it is modelled by explicit state passing.  The wrapped
function is modelled as `f : Nat → α → β` so that a result may depend on
the (integer) time at which the underlying load actually runs, making a
fresh load observable. -/

structure TtlCache (α β : Type) where
  entries : List ((α × Nat) × β)

/-- One call through the `ttl_cache` wrapper at integer time `now`:
look up `(args, now / ttl)`; on a miss run the wrapped function and record
the result. -/
def ttlCall {α β : Type} [DecidableEq α] (ttl : Nat) (f : Nat → α → β)
    (cache : TtlCache α β) (now : Nat) (a : α) : β × TtlCache α β :=
  let key : α × Nat := (a, now / ttl)
  match cache.entries.find? (fun e => decide (e.1 = key)) with
  | some e => (e.2, cache)
  | none =>
    let v := f now a
    (v, { entries := ((key, v)) :: cache.entries })

/-! ## Connection factory (`connections.py:144-182`) -/

/-- The two concrete `Connection` variants (`connections.py:27-142`),
carrying the secret dictionary passed as construction parameters. -/
inductive Connection where
  | sqlDatabase (connection_config : List (String × String))
  | duckDBConnection (connection_config : List (String × String))
deriving DecidableEq, Repr

/-- The keys of `ConnectionFactory._TYPES` (`connections.py:169-172`). -/
def connectionClasses : List String := ["sqldb", "duckdb"]

/-- `ConnectionFactory.create_connection_instance`
(`connections.py:174-182`): dictionary lookup of `connection_class` in
`_TYPES`; an unknown class is a `KeyError`, modelled as `none`. -/
def create_connection_instance (connection_class : String)
    (connection_config : List (String × String)) : Option Connection :=
  if connection_class = "sqldb" then some (Connection.sqlDatabase connection_config)
  else if connection_class = "duckdb" then
    some (Connection.duckDBConnection connection_config)
  else none

/-! ## Inquiry: split into atomic queries (`engine.py:340-414`)

`Inquiry.__init__` sorts the resolved metrics with
`sorted(..., key=lambda metric: metric.source.name)` (Python's sort is
stable; any stable sort by the same total key order yields the same list,
so `List.insertionSort` is the model).  `Inquiry._split_queries` then runs
`itertools.groupby(self.metrics, key=lambda metric: metric.source)`:
consecutive metrics with equal sources form one `AtomicQuery`.
`Source.__eq__` compares `(name, class)`, so the group key is modelled by
the source's name.  An atomic query is modelled by its `(source name,
metric run)` pair — exactly the data `AtomicQuery` receives. -/

def bySource (a b : Metric) : Prop := a.source.name ≤ b.source.name

instance : DecidableRel bySource := fun a b =>
  inferInstanceAs (Decidable (a.source.name ≤ b.source.name))

instance : IsTotal Metric bySource := ⟨fun a b => le_total a.source.name b.source.name⟩

instance : IsTrans Metric bySource := ⟨fun _ _ _ hab hbc => le_trans hab hbc⟩

/-- The stable sort of `Inquiry.__init__` (`engine.py:358-361`). -/
def sort_metrics (ms : List Metric) : List Metric := List.insertionSort bySource ms

/-- `itertools.groupby` by the metric's source: split a list into maximal
consecutive runs of metrics whose sources have the same name. -/
def groupRuns : List Metric → List (String × List Metric)
  | [] => []
  | m :: ms =>
    match groupRuns ms with
    | [] => [(m.source.name, [m])]
    | (k, g) :: rest =>
      if m.source.name = k then (k, m :: g) :: rest
      else (m.source.name, [m]) :: (k, g) :: rest

/-- `Inquiry._split_queries` (`engine.py:398-414`): one atomic query per
group of the source-sorted metric list. -/
def split_queries (ms : List Metric) : List (String × List Metric) :=
  groupRuns (sort_metrics ms)

/-! ## Inquiry: combine atomic queries (`engine.py:416-448`) -/

inductive JoinType where
  | full
  | cross
deriving DecidableEq, Repr

structure Join where
  table : String
  joinType : JoinType
  usingCols : List String
deriving DecidableEq, Repr

/-- The combined SELECT built by `Inquiry._combine_queries`: projection
list, leading table, the joins appended by the left fold, and the ORDER BY
expressions. -/
structure CombinedQuery where
  selectExpressions : List String
  fromTable : String
  joins : List Join
  orderBy : List String
deriving DecidableEq, Repr

/-- The dimension column list of `_combine_queries` (`engine.py:418-420`):
the granularity alias, when set, is prepended to the dimension names. -/
def granCols (g : Option GRANULARITY) : List String :=
  match g with
  | some g => [g.alias]
  | none => []

/-- `Inquiry._combine_queries` (`engine.py:416-448`).  `table_names` are
the atomic queries' intermediate names; destructuring
`first_table, *other_tables` fails on an empty list (`ValueError`),
modelled as `none`.  With dimension columns present the fold appends FULL
OUTER JOIN ... USING (dim_columns); otherwise CROSS JOINs.  ORDER BY is
appended exactly when `order_by` was supplied. -/
def combine_queries (dimensions : List String) (granularity : Option GRANULARITY)
    (metric_columns : List String) (table_names : List String)
    (order_by : Option (List String)) (client_sql : Option (List String)) :
    Option CombinedQuery :=
  let dim_columns := granCols granularity ++ dimensions
  let select_expressions :=
    match client_sql with
    | some es => es
    | none => dim_columns ++ metric_columns
  match table_names with
  | [] => none
  | first_table :: other_tables =>
    let query : CombinedQuery :=
      { selectExpressions := select_expressions, fromTable := first_table,
        joins := [], orderBy := [] }
    let query :=
      if !dim_columns.isEmpty then
        other_tables.foldl (fun q t => { q with joins := q.joins ++
          [{ table := t, joinType := JoinType.full, usingCols := dim_columns }] }) query
      else
        other_tables.foldl (fun q t => { q with joins := q.joins ++
          [{ table := t, joinType := JoinType.cross, usingCols := [] }] }) query
    some (match order_by with
      | some o => { query with orderBy := o }
      | none => query)

/-! ## Restricted-SQL translator (`sql/mimir_sql.py:33-71`)

`MimirSql.parse_inquiry` works on the sqlglot AST of the projections of a
single SELECT.  The node kinds the code touches are embedded:
`exp.Identifier`, `exp.Column` (whose `this` is an identifier),
function calls (`fname` models the value of sqlglot's `name` property the
code compares against `"AGG"`; an unrecognized function such as `AGG`
parses to `exp.Anonymous` whose `name` is the function name), and
`exp.Alias` (whose `alias` is an identifier).  sqlglot's
`Expression.find` walks the subtree breadth-first, the node itself first,
and returns the first match; `bfsLevels` reproduces that order, with fuel
`nodeSize` (an upper bound on the depth) so every level is reached. -/

inductive SqlNode where
  | identifier (name : String)
  | column (inner : SqlNode)
  | funcNode (fname : String) (args : List SqlNode)
  | aliasNode (inner : SqlNode) (aliasId : SqlNode)

mutual
def nodeSize : SqlNode → Nat
  | .identifier _ => 1
  | .column inner => 1 + nodeSize inner
  | .funcNode _ args => 1 + nodesSize args
  | .aliasNode inner aliasId => 1 + nodeSize inner + nodeSize aliasId
def nodesSize : List SqlNode → Nat
  | [] => 0
  | n :: ns => nodeSize n + nodesSize ns
end

/-- The child expressions of a node, in sqlglot argument order
(`Alias` stores `this` before `alias`). -/
def children : SqlNode → List SqlNode
  | .identifier _ => []
  | .column inner => [inner]
  | .funcNode _ args => args
  | .aliasNode inner aliasId => [inner, aliasId]

/-- Breadth-first node enumeration: the current level in order, then the
next level (children of the level's nodes, left to right). -/
def bfsLevels : Nat → List SqlNode → List SqlNode
  | 0, _ => []
  | fuel + 1, level => level ++ bfsLevels fuel (level.map children).flatten

/-- `Expression.find(type)`: first node in breadth-first order (including
the node itself) satisfying the predicate. -/
def findNode (p : SqlNode → Bool) (n : SqlNode) : Option SqlNode :=
  (bfsLevels (nodeSize n) [n]).find? p

def isFunc : SqlNode → Bool
  | .funcNode _ _ => true
  | _ => false

def isColumn : SqlNode → Bool
  | .column _ => true
  | _ => false

def isIdentifier : SqlNode → Bool
  | .identifier _ => true
  | _ => false

/-- sqlglot's `name` / `Identifier.this` as used at the call sites of
`parse_inquiry`. -/
def nodeName : SqlNode → String
  | .identifier s => s
  | .funcNode f _ => f
  | _ => ""

/-- Python `str.upper` restricted to ASCII, as it acts on function names. -/
def upperStr (s : String) : String := String.mk (s.data.map Char.toUpper)

/-- The dimension/metric discriminator of `parse_inquiry`
(`mimir_sql.py:40-43, 49-50`):
`col.find(exp.Func) and col.find(exp.Func).name.upper() == "AGG"`. -/
def hasAggFunc (c : SqlNode) : Bool :=
  match findNode isFunc c with
  | some f => upperStr (nodeName f) == "AGG"
  | none => false

/-- `col.find(exp.Column).find(exp.Identifier).this` (`mimir_sql.py:38`). -/
def dimIdent (c : SqlNode) : Option String :=
  (findNode isColumn c).bind fun col =>
    (findNode isIdentifier col).map nodeName

/-- `col.find(exp.Func).find(exp.Identifier).this` (`mimir_sql.py:47`). -/
def metIdent (c : SqlNode) : Option String :=
  (findNode isFunc c).bind fun f =>
    (findNode isIdentifier f).map nodeName

mutual
/-- The `client_sql` rewrite (`mimir_sql.py:60-63`): every function node
named `AGG` is replaced by `node.find(exp.Column)`, i.e. by the first
column inside it (in Python a nested `AGG` below a replaced node is walked
only in the detached subtree, so only outermost `AGG`s take effect, as
here).  The pathological `AGG` with no column (where Python calls
`replace(None)`) keeps the node. -/
def replaceAgg : SqlNode → SqlNode
  | .identifier s => .identifier s
  | .column inner => .column inner
  | .funcNode f args =>
    if upperStr f == "AGG" then
      (findNode isColumn (.funcNode f args)).getD (.funcNode f args)
    else .funcNode f (replaceAggList args)
  | .aliasNode inner aliasId => .aliasNode (replaceAgg inner) aliasId
def replaceAggList : List SqlNode → List SqlNode
  | [] => []
  | n :: ns => replaceAgg n :: replaceAggList ns
end

/-- The result of `MimirSql.parse_inquiry` restricted to the fields claim
C6 speaks about (`global_filter` and `order_by` are direct SQL re-emission
of the WHERE/ORDER fragments and are not modelled).  Python collects
`dimensions` and `metrics` into sets; the embedding keeps the underlying
extraction lists, read as sets. -/
structure ParsedInquiry where
  dimensions : List String
  metrics : List String
  client_sql : List SqlNode

/-- `MimirSql.parse_inquiry` (`mimir_sql.py:33-71`) on the projection list
of the accepted SELECT.  A projection with no column (dimension branch) or
no identifier makes the Python code fail on `None.find`; that is `none`
here. -/
def parse_inquiry (projections : List SqlNode) : Option ParsedInquiry := do
  let dims ← (projections.filter (fun c => !(hasAggFunc c))).mapM dimIdent
  let mets ← (projections.filter hasAggFunc).mapM metIdent
  pure { dimensions := dims, metrics := mets,
         client_sql := replaceAggList projections }

mutual
/-- Modelled from the spec: the claim's classifier "projection containing
a function call named AGG (case-insensitive)" — containment anywhere in
the projection tree, to be compared with the code's `hasAggFunc` (first
function found). -/
def specContainsAgg : SqlNode → Bool
  | .identifier _ => false
  | .column inner => specContainsAgg inner
  | .funcNode f args => upperStr f == "AGG" || specContainsAggList args
  | .aliasNode inner _ => specContainsAgg inner
/-- List form of `specContainsAgg`. -/
def specContainsAggList : List SqlNode → Bool
  | [] => false
  | n :: ns => specContainsAgg n || specContainsAggList ns
end

/-- The canonical dialect of projections over `mimir.metrics`: a plain
dimension column or an `AGG(metric)` call, each optionally aliased. -/
inductive ProjSpec where
  | dim (name : String) (al : Option String)
  | met (name : String) (al : Option String)

/-- The sqlglot AST of a canonical projection. -/
def ProjSpec.toNode : ProjSpec → SqlNode
  | .dim n none => .column (.identifier n)
  | .dim n (some a) => .aliasNode (.column (.identifier n)) (.identifier a)
  | .met n none => .funcNode "AGG" [.column (.identifier n)]
  | .met n (some a) =>
    .aliasNode (.funcNode "AGG" [.column (.identifier n)]) (.identifier a)

def ProjSpec.isDim : ProjSpec → Bool
  | .dim _ _ => true
  | .met _ _ => false

def ProjSpec.pname : ProjSpec → String
  | .dim n _ => n
  | .met n _ => n

/-- The canonical projection with `AGG(x)` replaced by `x`, alias kept. -/
def ProjSpec.stripped : ProjSpec → SqlNode
  | .dim n none => .column (.identifier n)
  | .dim n (some a) => .aliasNode (.column (.identifier n)) (.identifier a)
  | .met n none => .column (.identifier n)
  | .met n (some a) => .aliasNode (.column (.identifier n)) (.identifier a)

/-! ## Concrete values used by witnesses and counterexamples -/

/-- A source whose `sql` is `SELECT region FROM ...` with time column
`time_col` (no alias): `time_col_alias = "time_col"`,
`local_dimensions = ["region"]`. -/
def exSource : Source := Source.init "orders"
  { expressions := [{ text := "region", aliasOrName := "region" }],
    whereConjuncts := [] }
  "time_col" [] none

/-- A source whose `sql` projects `a` and `t`, with `time_col = "t"` and no
alias, so `local_dimensions = ["a"]` and the time alias is `"t"`. -/
def c4Source : Source := Source.init "my_source"
  { expressions := [{ text := "a", aliasOrName := "a" },
                    { text := "t", aliasOrName := "t" }],
    whereConjuncts := [] }
  "t" [] none

/-- A second source, named `inventory`. -/
def invSource : Source := Source.init "inventory"
  { expressions := [{ text := "region", aliasOrName := "region" }],
    whereConjuncts := [] }
  "ts" [] none

def exMetric1 : Metric :=
  { name := "my_metric", sql := "SUM(amount) AS my_metric", source := exSource }

def exMetric2 : Metric :=
  { name := "stock_level", sql := "SUM(stock) AS stock_level", source := invSource }

def exMetric3 : Metric :=
  { name := "order_count", sql := "COUNT(1) AS order_count", source := exSource }

/-- A three-metric list over two sources, out of source order. -/
def wMetrics : List Metric := [exMetric2, exMetric1, exMetric3]

/-- The projection `UPPER(AGG(x))`: a top-level projection that contains a
function call named `AGG`, but whose first function in breadth-first order
is `UPPER`. -/
def c6Node : SqlNode :=
  .funcNode "UPPER" [.funcNode "AGG" [.column (.identifier "x")]]

/-- A loader with no dimension configurations. -/
def noDimLoader : String → Option RawDimensionConf := fun _ => none

/-- A loader with no source configurations. -/
def noSrcLoader : String → Option RawSourceConf := fun _ => none

/-- A loader with no metric configurations. -/
def noMetLoader : String → Option RawMetricConf := fun _ => none

/-- A wrapped resolver whose result is the integer time at which the load
actually runs, making fresh loads observable. -/
def timeLoad : Nat → String → Nat := fun t _ => t

def emptyCache : TtlCache String Nat := { entries := [] }

/-! ## Statement-side abbreviations -/

/-- The WHERE conjunct `compile_source` appends for a start date. -/
def startBound (time_col : String) : Option Date → List String
  | some d => [time_col ++ " >= \x27" ++ strftimeYmd d ++ "\x27"]
  | none => []

/-- The WHERE conjunct `compile_source` appends for an (inclusive) end
date: a strict less-than on the following day. -/
def endBound (time_col : String) : Option Date → List String
  | some d => [time_col ++ " < \x27" ++ strftimeYmd (addOneDay d) ++ "\x27"]
  | none => []

/-! ## Helper lemmas -/

/-- The join-appending left fold of `_combine_queries` collects exactly
one join per remaining table, in order. -/
theorem foldl_join_append (mk : String → Join) (ts : List String) (q : CombinedQuery) :
    ts.foldl (fun q t => { q with joins := q.joins ++ [mk t] }) q =
      { q with joins := q.joins ++ ts.map mk } := by
  induction ts generalizing q with
  | nil => simp
  | cons t ts ih => simp [ih]

/-- The groups of `groupRuns` flatten back to the input list. -/
theorem groupRuns_flatten (l : List Metric) :
    ((groupRuns l).map Prod.snd).flatten = l := by
  induction l with
  | nil => rfl
  | cons m ms ih =>
    simp only [groupRuns]
    cases hg : groupRuns ms with
    | nil =>
      rw [hg] at ih
      simp at ih
      simp [← ih]
    | cons p rest =>
      obtain ⟨k, g⟩ := p
      rw [hg] at ih
      by_cases hk : m.source.name = k <;> simp [hk, ← ih]

/-- Every metric in a group of `groupRuns` is owned by the group's
source. -/
theorem groupRuns_owner (l : List Metric) :
    ∀ p ∈ groupRuns l, ∀ m ∈ p.2, m.source.name = p.1 := by
  induction l with
  | nil => simp [groupRuns]
  | cons m ms ih =>
    simp only [groupRuns]
    cases hg : groupRuns ms with
    | nil =>
      intro p hp x hx
      simp at hp
      subst hp
      simp at hx
      subst hx
      rfl
    | cons q rest =>
      obtain ⟨k, g⟩ := q
      rw [hg] at ih
      by_cases hk : m.source.name = k
      · simp only [hk, if_true]
        intro p hp x hx
        rcases List.mem_cons.mp hp with hph | hpr
        · subst hph
          rcases List.mem_cons.mp hx with hxm | hxg
          · subst hxm; exact hk
          · exact ih (k, g) (List.mem_cons_self _ _) x hxg
        · exact ih p (List.mem_cons_of_mem _ hpr) x hx
      · simp only [hk, if_false]
        intro p hp x hx
        rcases List.mem_cons.mp hp with hph | hpr
        · subst hph
          simp at hx
          subst hx
          rfl
        · exact ih p hpr x hx

/-- Every group of `groupRuns` is non-empty. -/
theorem groupRuns_group_ne_nil (l : List Metric) :
    ∀ p ∈ groupRuns l, p.2 ≠ [] := by
  induction l with
  | nil => simp [groupRuns]
  | cons m ms ih =>
    simp only [groupRuns]
    cases hg : groupRuns ms with
    | nil =>
      intro p hp
      simp at hp
      subst hp
      simp
    | cons q rest =>
      obtain ⟨k, g⟩ := q
      rw [hg] at ih
      by_cases hk : m.source.name = k
      · simp only [hk, if_true]
        intro p hp
        rcases List.mem_cons.mp hp with hph | hpr
        · subst hph; simp
        · exact ih p (List.mem_cons_of_mem _ hpr)
      · simp only [hk, if_false]
        intro p hp
        rcases List.mem_cons.mp hp with hph | hpr
        · subst hph; simp
        · exact ih p hpr

/-- Every group key of `groupRuns` is the source name of some input
metric. -/
theorem groupRuns_key_mem (l : List Metric) :
    ∀ k ∈ (groupRuns l).map Prod.fst, ∃ x ∈ l, x.source.name = k := by
  intro k hk
  rcases List.mem_map.mp hk with ⟨p, hp, hpk⟩
  rcases List.exists_mem_of_ne_nil _ (groupRuns_group_ne_nil l p hp) with ⟨x, hx⟩
  refine ⟨x, ?_, ?_⟩
  · rw [← groupRuns_flatten l]
    exact List.mem_flatten.mpr ⟨p.2, List.mem_map_of_mem Prod.snd hp, hx⟩
  · rw [← hpk]
    exact groupRuns_owner l p hp x hx

/-- `groupRuns` of a non-empty list is a non-empty group list whose head
key is the head metric's source name. -/
theorem groupRuns_cons (m : Metric) (ms : List Metric) :
    ∃ p rest, groupRuns (m :: ms) = p :: rest ∧ p.1 = m.source.name := by
  simp only [groupRuns]
  cases groupRuns ms with
  | nil => exact ⟨_, _, rfl, rfl⟩
  | cons q rest =>
    obtain ⟨k, g⟩ := q
    by_cases hk : m.source.name = k
    · exact ⟨(k, m :: g), rest, by simp [hk], hk.symm⟩
    · exact ⟨(m.source.name, [m]), (k, g) :: rest, by simp [hk], rfl⟩

/-- On a source-sorted metric list the group keys of `groupRuns` are
strictly increasing. -/
theorem groupRuns_keys_lt (l : List Metric) (h : List.Sorted bySource l) :
    ((groupRuns l).map Prod.fst).Pairwise (fun a b => a < b) := by
  induction l with
  | nil => simp [groupRuns]
  | cons m ms ih =>
    rw [List.sorted_cons] at h
    obtain ⟨h1, h2⟩ := h
    have IH := ih h2
    simp only [groupRuns]
    cases hg : groupRuns ms with
    | nil => simp
    | cons q rest =>
      obtain ⟨k, g⟩ := q
      rw [hg] at IH
      simp only [List.map_cons] at IH
      by_cases hk : m.source.name = k
      · simp only [hk, if_true, List.map_cons]
        exact IH
      · have hmk : m.source.name < k := by
          have hkmem : k ∈ (groupRuns ms).map Prod.fst := by
            rw [hg]; simp
          rcases groupRuns_key_mem ms k hkmem with ⟨x, hx, hxk⟩
          exact lt_of_le_of_ne (hxk ▸ h1 x hx) hk
        simp only [hk, if_false, List.map_cons]
        refine List.Pairwise.cons ?_ IH
        intro b hb
        rcases List.mem_cons.mp hb with hbk | hbr
        · exact hbk ▸ hmk
        · exact lt_trans hmk (List.rel_of_pairwise_cons IH hbr)

/-! ## Claim theorems -/

/-- Claim C5 (code bug witnessed): `GRANULARITY.YEAR` has alias `"year"`,
but its expression for any column `c` is `DATE_TRUNC('year', c) AS
year_month` — the output alias does not equal the variant's alias, contrary
to the claim (and to the pattern of every other variant). -/
theorem C5_year_granularity_alias_mismatch :
    GRANULARITY.YEAR.alias = "year" ∧
    GRANULARITY.YEAR.getGranularityExpression "c" =
      { expr := "DATE_TRUNC(\x27year\x27, c)", outputAlias := "year_month" } ∧
    (GRANULARITY.YEAR.getGranularityExpression "c").outputAlias ≠
      GRANULARITY.YEAR.alias := by
  decide

/-- Claim C9, counterexample: the factory's domain is `{"sqldb",
"duckdb"}`, not `{"sqldb", "embedded"}` — the key `"embedded"` is a
`KeyError` (`none`), while `"duckdb"` selects the embedded file backend. -/
theorem C9_counterexample :
    create_connection_instance "embedded" [("path", "data.db")] = none ∧
    create_connection_instance "duckdb" [("path", "data.db")] =
      some (Connection.duckDBConnection [("path", "data.db")]) := by
  decide

/-- Claim C9 as amended: the factory maps `"sqldb"` to the SQL-pooled
backend and `"duckdb"` to the embedded file backend, passing the secret
dictionary through, and these two keys are the factory's whole domain. -/
theorem C9_connection_factory_domain (cfg : List (String × String)) (cls : String) :
    create_connection_instance "sqldb" cfg = some (Connection.sqlDatabase cfg) ∧
    create_connection_instance "duckdb" cfg = some (Connection.duckDBConnection cfg) ∧
    ((create_connection_instance cls cfg).isSome ↔ cls = "sqldb" ∨ cls = "duckdb") := by
  refine ⟨rfl, rfl, ?_⟩
  unfold create_connection_instance
  by_cases h1 : cls = "sqldb" <;> by_cases h2 : cls = "duckdb" <;> simp [h1, h2]

/-- Claim C9 witness at a concrete configuration and class. -/
theorem C9_connection_factory_domain_witness :
    create_connection_instance "sqldb" [("host", "db")] =
      some (Connection.sqlDatabase [("host", "db")]) ∧
    create_connection_instance "duckdb" [("host", "db")] =
      some (Connection.duckDBConnection [("host", "db")]) ∧
    ((create_connection_instance "embedded" [("host", "db")]).isSome ↔
      "embedded" = "sqldb" ∨ "embedded" = "duckdb") :=
  C9_connection_factory_domain [("host", "db")] "embedded"

/-- Claim C2: `compile_source` appends `WHERE time_col >= '<start>'` when a
start date is present and `WHERE time_col < '<end + 1 day>'` when an end
date is present (both, conjoined, when both are); concretely, start
2025-01-01 and end 2025-01-31 yield `time_col >= '2025-01-01' AND
time_col < '2025-02-01'`. -/
theorem C2_compile_source_date_bounds :
    (∀ (s : Source) (dims : List Dimension) (a b : Option Date),
      (s.compile_source dims a b).whereConjuncts =
        s.sql.whereConjuncts ++ startBound s.time_col a ++ endBound s.time_col b) ∧
    (exSource.compile_source [] (some ⟨2025, 1, 1⟩) (some ⟨2025, 1, 31⟩)).whereConjuncts =
      ["time_col >= \x272025-01-01\x27", "time_col < \x272025-02-01\x27"] := by
  constructor
  · intro s dims a b
    cases a <;> cases b <;>
      simp [Source.compile_source, startBound, endBound, apply_ite Select.whereConjuncts]
  · decide

/-- Claim C2 witness at a concrete source and date pair. -/
theorem C2_compile_source_date_bounds_witness :
    (exSource.compile_source [] (some ⟨2024, 2, 28⟩) (some ⟨2024, 2, 29⟩)).whereConjuncts =
      exSource.sql.whereConjuncts ++ startBound exSource.time_col (some ⟨2024, 2, 28⟩)
        ++ endBound exSource.time_col (some ⟨2024, 2, 29⟩) :=
  C2_compile_source_date_bounds.1 exSource [] (some ⟨2024, 2, 28⟩) (some ⟨2024, 2, 29⟩)

/-- Claim C7: when the loader has no configuration for the requested name,
`get_dimension` synthesizes a local dimension stub whose `name` is the
requested name and whose `source_name` is `"local"`, while `get_source`
and `get_metric` raise a configuration error naming the offending
entity. -/
theorem C7_missing_config_behaviour (ld : String → Option RawDimensionConf)
    (ls : String → Option RawSourceConf) (lm : String → Option RawMetricConf)
    (name : String) (hd : ld name = none) (hs : ls name = none)
    (hm : lm name = none) :
    (get_dimension ld name).name = name ∧
    (get_dimension ld name).source_name = "local" ∧
    get_source ls name =
      Except.error ("Invalid or missing configuration for source \x27" ++ name ++ "\x27") ∧
    get_metric lm ls name =
      Except.error ("Invalid or missing configuration for metric \x27" ++ name ++ "\x27") := by
  refine ⟨?_, ?_, ?_, ?_⟩ <;>
    simp [get_dimension, get_source, get_metric, initDimension, hd, hs, hm]

/-- Claim C7 witness: empty loaders and the name `"orders"`. -/
theorem C7_missing_config_behaviour_witness :
    (get_dimension noDimLoader "orders").name = "orders" ∧
    (get_dimension noDimLoader "orders").source_name = "local" ∧
    get_source noSrcLoader "orders" =
      Except.error "Invalid or missing configuration for source \x27orders\x27" ∧
    get_metric noMetLoader noSrcLoader "orders" =
      Except.error "Invalid or missing configuration for metric \x27orders\x27" :=
  C7_missing_config_behaviour noDimLoader noSrcLoader noMetLoader "orders" rfl rfl rfl

/-- Claim C8, counterexample: two calls 2 seconds apart (t = 59 and
t = 61), with the same argument, fall in different `floor(t / 60)` buckets
and observe different results — "within the 60-second TTL of each other"
does not guarantee identical results. -/
theorem C8_counterexample :
    (61 : Nat) - 59 ≤ 60 ∧
    (ttlCall 60 timeLoad (ttlCall 60 timeLoad emptyCache 59 "src").2 61 "src").1 ≠
      (ttlCall 60 timeLoad emptyCache 59 "src").1 := by
  decide

/-- Claim C8 as amended: resolver results are memoized under
`(arguments, floor(now / 60))`; two calls with the same arguments whose
times fall in the same 60-second bucket return the identical cached
result, and a call whose bucket key is not yet cached observes a fresh
load. -/
theorem C8_ttl_cache_bucketed {α β : Type} [DecidableEq α] (f : Nat → α → β)
    (c : TtlCache α β) (t1 t2 : Nat) (a : α) :
    (t1 / 60 = t2 / 60 →
      (ttlCall 60 f (ttlCall 60 f c t1 a).2 t2 a).1 = (ttlCall 60 f c t1 a).1) ∧
    (c.entries.find? (fun e => decide (e.1 = (a, t2 / 60))) = none →
      (ttlCall 60 f c t2 a).1 = f t2 a) := by
  constructor
  · intro hb
    simp only [ttlCall, ← hb]
    cases hfind : c.entries.find? (fun e => decide (e.1 = (a, t1 / 60))) with
    | some e => simp [hfind]
    | none =>
      simp only [hfind]
      have hcons :
          (((a, t1 / 60), f t1 a) :: c.entries).find?
            (fun e => decide (e.1 = (a, t1 / 60))) =
            some ((a, t1 / 60), f t1 a) :=
        List.find?_cons_of_pos _ (by simp)
      rw [hcons]
  · intro hfresh
    simp [ttlCall, hfresh]

/-- Claim C8 witness: same bucket (t = 0 and t = 30) returns the cached
value; an empty cache observes the fresh load. -/
theorem C8_ttl_cache_bucketed_witness :
    (ttlCall 60 timeLoad (ttlCall 60 timeLoad emptyCache 0 "src").2 30 "src").1 =
      (ttlCall 60 timeLoad emptyCache 0 "src").1 ∧
    (ttlCall 60 timeLoad emptyCache 30 "src").1 = timeLoad 30 "src" :=
  ⟨(C8_ttl_cache_bucketed timeLoad emptyCache 0 30 "src").1 (by decide),
   (C8_ttl_cache_bucketed timeLoad emptyCache 0 30 "src").2 rfl⟩

/-- Skipping empty candidate lists (Python truthiness) does not change the
flattened allowed-column list. -/
theorem flatten_filter_nonEmpty (L : List (List String)) :
    (L.filter (fun l => !l.isEmpty)).flatten = L.flatten := by
  induction L with
  | nil => rfl
  | cons h t ih =>
    cases h with
    | nil => simpa using ih
    | cons x xs => simp [List.filter_cons, ih]

/-- Claim C1: the resolved metrics are sorted (stably) by their owning
source's name; the atomic queries partition that sorted list with one
query per distinct source, each containing exactly the metrics owned by
its source — so no metric (and hence no metric's SQL) lands in another
source's atomic query. -/
theorem C1_split_queries_partition (ms : List Metric) :
    (sort_metrics ms).Perm ms ∧
    List.Sorted bySource (sort_metrics ms) ∧
    ((split_queries ms).map Prod.snd).flatten = sort_metrics ms ∧
    (∀ p ∈ split_queries ms, ∀ m ∈ p.2, m.source.name = p.1) ∧
    ((split_queries ms).map Prod.fst).Pairwise (fun a b => a ≠ b) ∧
    (∀ m ∈ ms, ∃ p ∈ split_queries ms, p.1 = m.source.name ∧ m ∈ p.2) := by
  have hperm : (sort_metrics ms).Perm ms := List.perm_insertionSort bySource ms
  have hsorted : List.Sorted bySource (sort_metrics ms) :=
    List.sorted_insertionSort bySource ms
  refine ⟨hperm, hsorted, groupRuns_flatten _, groupRuns_owner _, ?_, ?_⟩
  · exact (groupRuns_keys_lt _ hsorted).imp ne_of_lt
  · intro m hm
    have hmem : m ∈ ((split_queries ms).map Prod.snd).flatten := by
      rw [split_queries, groupRuns_flatten]
      exact hperm.mem_iff.mpr hm
    rcases List.mem_flatten.mp hmem with ⟨l, hl, hml⟩
    rcases List.mem_map.mp hl with ⟨p, hp, hpl⟩
    exact ⟨p, hp, (groupRuns_owner _ p hp m (hpl ▸ hml)).symm, hpl ▸ hml⟩

/-- Claim C1 witness: three metrics over two sources, given out of source
order. -/
theorem C1_split_queries_partition_witness :
    ((split_queries wMetrics).map Prod.fst).Pairwise (fun a b => a ≠ b) ∧
    ((split_queries wMetrics).map Prod.snd).flatten = sort_metrics wMetrics ∧
    (∀ p ∈ split_queries wMetrics, ∀ m ∈ p.2, m.source.name = p.1) :=
  ⟨(C1_split_queries_partition wMetrics).2.2.2.2.1,
   (C1_split_queries_partition wMetrics).2.2.1,
   (C1_split_queries_partition wMetrics).2.2.2.1⟩

/-- Claim C3: with at least two atomic queries, `_combine_queries` starts
from the first table and left-folds FULL OUTER JOIN ... USING the
dimension columns (granularity alias prepended as an ordinary dimension)
when any are present, CROSS JOIN otherwise; the ORDER BY expressions are
present exactly when `order_by` was supplied. -/
theorem C3_combine_queries_joins (dims : List String) (gran : Option GRANULARITY)
    (mcols : List String) (t1 : String) (rest : List String)
    (ob : Option (List String)) (cs : Option (List String)) (_hrest : rest ≠ []) :
    combine_queries dims gran mcols (t1 :: rest) ob cs =
      some { selectExpressions :=
               match cs with
               | some es => es
               | none => granCols gran ++ dims ++ mcols,
             fromTable := t1,
             joins :=
               if (granCols gran ++ dims).isEmpty then
                 rest.map (fun t =>
                   { table := t, joinType := JoinType.cross, usingCols := [] })
               else
                 rest.map (fun t =>
                   { table := t, joinType := JoinType.full,
                     usingCols := granCols gran ++ dims }),
             orderBy := ob.getD [] } := by
  unfold combine_queries
  by_cases hd : (granCols gran ++ dims).isEmpty <;>
    cases ob <;>
      simp [hd, foldl_join_append, List.append_assoc, Option.getD]

/-- Claim C3 witness: two tables, one dimension, ORDER BY supplied. -/
theorem C3_combine_queries_joins_witness :
    combine_queries ["d"] none ["m1", "m2"] ["t1", "t2"] (some ["d"]) none =
      some { selectExpressions := ["d", "m1", "m2"], fromTable := "t1",
             joins := [{ table := "t2", joinType := JoinType.full,
                         usingCols := ["d"] }],
             orderBy := ["d"] } :=
  C3_combine_queries_joins ["d"] none ["m1", "m2"] "t1" ["t2"] (some ["d"]) none
    (List.cons_ne_nil _ _)

/-- Claim C10: an empty metric list yields zero atomic queries;
`_combine_queries` fails (`none`, Python `ValueError` on destructuring)
on the empty table list; and a non-empty metric list always yields at
least one atomic query, on which the combination step is defined. -/
theorem C10_empty_metrics_behaviour :
    split_queries [] = [] ∧
    (∀ dims gran mcols ob cs, combine_queries dims gran mcols [] ob cs = none) ∧
    (∀ ms : List Metric, ms ≠ [] →
      split_queries ms ≠ [] ∧
      ∀ dims gran mcols ob cs,
        (combine_queries dims gran mcols ((split_queries ms).map Prod.fst)
          ob cs).isSome = true) := by
  refine ⟨rfl, ?_, ?_⟩
  · intro dims gran mcols ob cs
    rfl
  · intro ms hms
    have hsort : sort_metrics ms ≠ [] := by
      intro hnil
      apply hms
      have hlen := (List.perm_insertionSort bySource ms).length_eq
      rw [show List.insertionSort bySource ms = sort_metrics ms from rfl, hnil] at hlen
      exact List.length_eq_zero.mp hlen.symm
    have hsplit : split_queries ms ≠ [] := by
      unfold split_queries
      cases hs : sort_metrics ms with
      | nil => exact absurd hs hsort
      | cons m ms2 =>
        rcases groupRuns_cons m ms2 with ⟨p, restg, heq, _⟩
        rw [heq]
        exact List.cons_ne_nil _ _
    refine ⟨hsplit, ?_⟩
    intro dims gran mcols ob cs
    cases htab : (split_queries ms).map Prod.fst with
    | nil => exact absurd (List.map_eq_nil_iff.mp htab) hsplit
    | cons t ts =>
      unfold combine_queries
      by_cases hd : (granCols gran ++ dims).isEmpty <;> cases ob <;> simp [hd]

/-- Claim C10 witness: a single metric yields one atomic query, and
combination is defined on it. -/
theorem C10_empty_metrics_behaviour_witness :
    split_queries [exMetric1] ≠ [] ∧
    (combine_queries [] none ["my_metric"]
      ((split_queries [exMetric1]).map Prod.fst) none none).isSome = true :=
  ⟨(C10_empty_metrics_behaviour.2.2 [exMetric1] (List.cons_ne_nil _ _)).1,
   (C10_empty_metrics_behaviour.2.2 [exMetric1] (List.cons_ne_nil _ _)).2
     [] none ["my_metric"] none none⟩

/-- Claim C4, counterexample: requesting the time alias `"t"` as a
dimension of `c4Source` does not raise, although `"t"` is in neither
`local_dimensions` nor `source_dimensions` — the claim's "if and only if"
fails, because `_validate_columns` always admits `time_col_alias` too. -/
theorem C4_counterexample :
    Source.validate_dimensions c4Source ["t"] = Except.ok () ∧
    "t" ∉ c4Source.local_dimensions ∧ "t" ∉ c4Source.source_dimensions := by
  refine ⟨rfl, by decide, by decide⟩

/-- Claim C4 as amended: `validate_dimensions` raises a configuration
error naming the source and listing exactly the offending columns if and
only if some requested name is outside `local_dimensions ∪
source_dimensions ∪ {time_col_alias}`; otherwise it returns without
error. -/
theorem C4_validate_dimensions_allowed (s : Source) (names : List String) :
    (Source.validate_dimensions s names =
      (let bad := names.filter (fun c =>
        !((s.local_dimensions ++ s.source_dimensions ++
          [s.time_col_alias]).contains c))
       if bad.isEmpty then Except.ok ()
       else Except.error (invalidColumnsMsg s.name
         "The following dimensions are missing from the source config: " bad))) ∧
    (Source.validate_dimensions s names = Except.ok () ↔
      ∀ c ∈ names, c ∈ s.local_dimensions ∨ c ∈ s.source_dimensions ∨
        c = s.time_col_alias) := by
  have hflat :
      (([s.local_dimensions, s.source_dimensions, ([] : List String),
        [s.time_col_alias]].filter (fun l => !l.isEmpty)).flatten) =
        s.local_dimensions ++ s.source_dimensions ++ [s.time_col_alias] := by
    rw [flatten_filter_nonEmpty]
    simp
  have h1 : Source.validate_dimensions s names =
      (let bad := names.filter (fun c =>
        !((s.local_dimensions ++ s.source_dimensions ++
          [s.time_col_alias]).contains c))
       if bad.isEmpty then Except.ok ()
       else Except.error (invalidColumnsMsg s.name
         "The following dimensions are missing from the source config: " bad)) := by
    unfold Source.validate_dimensions Source.validateColumns
    simp only [hflat, Option.getD]
  refine ⟨h1, ?_⟩
  rw [h1]
  by_cases hbad : (names.filter (fun c =>
      !((s.local_dimensions ++ s.source_dimensions ++
        [s.time_col_alias]).contains c))).isEmpty = true
  · simp only [hbad, if_true, true_iff]
    rw [List.isEmpty_iff, List.filter_eq_nil_iff] at hbad
    intro c hc
    have h2 := hbad c hc
    have h3 : c ∉ s.local_dimensions → c ∉ s.source_dimensions →
        c = s.time_col_alias := by
      simpa [List.mem_append] using h2
    tauto
  · constructor
    · intro hok
      rw [if_neg hbad] at hok
      exact absurd hok (by simp)
    · intro hall
      exfalso
      apply hbad
      rw [List.isEmpty_iff, List.filter_eq_nil_iff]
      intro c hc
      have h3 := hall c hc
      simp [List.mem_append]
      tauto

/-- Claim C4 witness: a valid and an invalid request against
`c4Source`. -/
theorem C4_validate_dimensions_allowed_witness :
    (Source.validate_dimensions c4Source ["a", "b"] =
      (let bad := ["a", "b"].filter (fun c =>
        !((c4Source.local_dimensions ++ c4Source.source_dimensions ++
          [c4Source.time_col_alias]).contains c))
       if bad.isEmpty then Except.ok ()
       else Except.error (invalidColumnsMsg c4Source.name
         "The following dimensions are missing from the source config: " bad))) ∧
    (Source.validate_dimensions c4Source ["a", "b"] = Except.ok () ↔
      ∀ c ∈ ["a", "b"], c ∈ c4Source.local_dimensions ∨
        c ∈ c4Source.source_dimensions ∨ c = c4Source.time_col_alias) :=
  C4_validate_dimensions_allowed c4Source ["a", "b"]

/-! ## Helper lemmas for the restricted-SQL translator -/

theorem hasAgg_toNode (p : ProjSpec) : hasAggFunc p.toNode = !p.isDim := by
  cases p with
  | dim n al => cases al <;> rfl
  | met n al => cases al <;> rfl

theorem dimIdent_dim (n : String) (al : Option String) :
    dimIdent (ProjSpec.toNode (.dim n al)) = some n := by
  cases al <;> rfl

theorem metIdent_met (n : String) (al : Option String) :
    metIdent (ProjSpec.toNode (.met n al)) = some n := by
  cases al <;> rfl

theorem dimIdent_toNode_of_isDim (p : ProjSpec) (h : p.isDim = true) :
    dimIdent p.toNode = some p.pname := by
  cases p with
  | dim n al => exact dimIdent_dim n al
  | met n al => simp [ProjSpec.isDim] at h

theorem metIdent_toNode_of_isMet (p : ProjSpec) (h : p.isDim = false) :
    metIdent p.toNode = some p.pname := by
  cases p with
  | dim n al => simp [ProjSpec.isDim] at h
  | met n al => exact metIdent_met n al

theorem replaceAgg_toNode (p : ProjSpec) : replaceAgg p.toNode = p.stripped := by
  cases p with
  | dim n al => cases al <;> rfl
  | met n al => cases al <;> rfl

theorem replaceAggList_map (ps : List ProjSpec) :
    replaceAggList (ps.map ProjSpec.toNode) = ps.map ProjSpec.stripped := by
  induction ps with
  | nil => rfl
  | cons p ps ih => simp [replaceAggList, replaceAgg_toNode, ih]

theorem filter_toNode_dims (ps : List ProjSpec) :
    (ps.map ProjSpec.toNode).filter (fun c => !(hasAggFunc c)) =
      (ps.filter ProjSpec.isDim).map ProjSpec.toNode := by
  induction ps with
  | nil => rfl
  | cons p ps ih =>
    cases hp : p.isDim <;>
      simp [List.filter_cons, hasAgg_toNode, hp, ih]

theorem filter_toNode_mets (ps : List ProjSpec) :
    (ps.map ProjSpec.toNode).filter hasAggFunc =
      (ps.filter (fun p => !p.isDim)).map ProjSpec.toNode := by
  induction ps with
  | nil => rfl
  | cons p ps ih =>
    cases hp : p.isDim <;>
      simp [List.filter_cons, hasAgg_toNode, hp, ih]

theorem mapM_map_eq_some {α β γ : Type} (f : α → β) (g : β → Option γ)
    (h : α → γ) (l : List α) (hp : ∀ a ∈ l, g (f a) = some (h a)) :
    (l.map f).mapM g = some (l.map h) := by
  induction l with
  | nil => rfl
  | cons a l ih =>
    rw [List.map_cons, List.mapM_cons, hp a (List.mem_cons_self a l),
      ih (fun x hx => hp x (List.mem_cons_of_mem a hx))]
    rfl

/-- Claim C6, counterexample: the projection `UPPER(AGG(x))` contains a
function call named `AGG`, yet `parse_inquiry` classifies it as the
dimension `x` (the first function found breadth-first is `UPPER`) and
extracts no metric — contrary to the claim's containment-based
classification. -/
theorem C6_counterexample :
    specContainsAgg c6Node = true ∧
    (parse_inquiry [c6Node]).map ParsedInquiry.dimensions = some ["x"] ∧
    (parse_inquiry [c6Node]).map ParsedInquiry.metrics = some [] :=
  ⟨rfl, rfl, rfl⟩

/-- Claim C6 as amended: a top-level projection is a dimension when its
first function call in breadth-first order is not named `AGG`
(case-insensitive) and a metric when it is — containment of an `AGG` call
deeper in the projection does not decide the split.  On the canonical
dialect (`d [AS a]` and `AGG(m) [AS a]` projections) `parse_inquiry`
returns exactly the plain-column identifiers as dimensions, the
`AGG`-wrapped identifiers as metrics, and as `client_sql` the original
projections with every `AGG(x)` replaced by `x`, preserving the caller's
column order and aliases. -/
theorem C6_parse_inquiry_classification (ps : List ProjSpec) :
    parse_inquiry (ps.map ProjSpec.toNode) =
      some { dimensions := (ps.filter ProjSpec.isDim).map ProjSpec.pname,
             metrics := (ps.filter (fun p => !p.isDim)).map ProjSpec.pname,
             client_sql := ps.map ProjSpec.stripped } := by
  unfold parse_inquiry
  rw [filter_toNode_dims, filter_toNode_mets, replaceAggList_map]
  rw [mapM_map_eq_some ProjSpec.toNode dimIdent ProjSpec.pname _
    (fun p hp => dimIdent_toNode_of_isDim p (List.mem_filter.mp hp).2)]
  rw [mapM_map_eq_some ProjSpec.toNode metIdent ProjSpec.pname _
    (fun p hp => metIdent_toNode_of_isMet p (by
      have := (List.mem_filter.mp hp).2
      simpa using this))]
  rfl

/-- Claim C6 witness: `SELECT d, AGG(m) AS m2` yields dimension `d`,
metric `m`, and client SQL `d, m AS m2`. -/
theorem C6_parse_inquiry_classification_witness :
    parse_inquiry ([ProjSpec.dim "d" none, ProjSpec.met "m" (some "m2")].map
        ProjSpec.toNode) =
      some { dimensions := ["d"], metrics := ["m"],
             client_sql := [SqlNode.column (SqlNode.identifier "d"),
               SqlNode.aliasNode (SqlNode.column (SqlNode.identifier "m"))
                 (SqlNode.identifier "m2")] } :=
  C6_parse_inquiry_classification [ProjSpec.dim "d" none, ProjSpec.met "m" (some "m2")]

end Mimir
